import Mathlib

/-!
Verification of the company-request matching algorithm and the proposal
lifecycle of the quote-comparison marketplace.

The matching functions are shallow embeddings of `lib/matching/algorithm.ts`
(calculateTechStackScore, calculateSpecialtyScore, calculateBudgetScore,
calculateRatingScore, calculateMatchScore, findMatchingCompanies), with
JavaScript numbers modelled as exact rationals, `Math.round` as
floor-of-plus-half, `Set` iteration as first-occurrence dedup, and the
stable `Array.prototype.sort` as a stable merge sort.

The proposal lifecycle embeds the three API routes that mutate proposal
state: POST `/api/requests/[id]/proposals` (submission), PATCH
`/api/proposals/[id]` (owner status update), and POST
`/api/proposals/[id]/select` (selection transaction).  The database is a
list of request rows and proposal rows; each route becomes a function from
the database to `Except` of an error or the updated database, with the
authentication and ownership checks (external collaborators) omitted and
the Prisma transaction of the select route modelled as a single atomic
update.
-/

namespace Mitsumori

/-- JavaScript `Math.round` on an exact rational: round half toward
positive infinity, `⌊q + 1/2⌋`. -/
def jsRound (q : ℚ) : ℤ := (q + 1/2).floor

/-- JavaScript `String.prototype.toLowerCase` restricted to ASCII (every
name the system compares is ASCII). -/
def jsToLower (s : String) : String := String.mk (s.data.map Char.toLower)

/-- Accumulator recursion behind `jsSetList`: keep each element not yet
seen. -/
def jsSetListAux {α : Type} [DecidableEq α] (seen : List α) : List α → List α
  | [] => []
  | x :: xs =>
    if x ∈ seen then jsSetListAux seen xs
    else x :: jsSetListAux (x :: seen) xs

/-- The distinct elements of a list in first-occurrence order, which is how
the JavaScript `Set` constructor iterates. -/
def jsSetList {α : Type} [DecidableEq α] (l : List α) : List α :=
  jsSetListAux [] l

/-- Search for a contiguous run of characters inside another character
list; helper for `jsIncludes`. -/
def substrSearch (needle : List Char) : List Char → Bool
  | [] => needle.isEmpty
  | c :: rest => needle.isPrefixOf (c :: rest) || substrSearch needle rest

/-- JavaScript `hay.includes(needle)`: contiguous substring containment. -/
def jsIncludes (hay needle : String) : Bool :=
  substrSearch needle.toList hay.toList

/-! ### Types from `types/matching.ts` -/

/-- Budget compatibility label. -/
inductive BudgetCompatibility
  | perfect
  | good
  | acceptable
  | mismatch
deriving DecidableEq

/-- Matching score breakdown for a company-request pair. -/
structure MatchScore where
  total : ℤ
  techStackScore : ℤ
  specialtyScore : ℤ
  budgetScore : ℤ
  ratingScore : ℤ
  matchedTechStacks : List String
  matchedSpecialties : List String
  budgetCompatibility : BudgetCompatibility
deriving DecidableEq

/-- Result of the tech-stack or specialty sub-calculators: a score and the
matched names. -/
structure ScoreWithMatched where
  score : ℤ
  matched : List String
deriving DecidableEq

/-- Result of the budget sub-calculator. -/
structure BudgetScoreResult where
  score : ℤ
  compatibility : BudgetCompatibility
deriving DecidableEq

/-- A tech-stack master row (only the name is consumed by the matcher). -/
structure TechStackInfo where
  name : String
deriving DecidableEq

/-- A company-to-tech-stack relation row. -/
structure CompanyTechStack where
  techStack : TechStackInfo
deriving DecidableEq

/-- A specialty master row (only the name is consumed by the matcher). -/
structure SpecialtyInfo where
  name : String
deriving DecidableEq

/-- A company-to-specialty relation row. -/
structure CompanySpecialty where
  specialty : SpecialtyInfo
deriving DecidableEq

/-- A company with the relations the matcher reads.  Fields the matcher
never touches (id, name, slug, logo, description, projectCount, ...) are
omitted. -/
structure CompanyWithRelations where
  isVerified : Bool
  acceptsNewProjects : Bool
  averageRating : ℚ
  reviewCount : ℕ
  techStacks : List CompanyTechStack
  specialties : List CompanySpecialty
deriving DecidableEq

/-- The optional requirements payload of a request. -/
structure RequestRequirements where
  techStacks : Option (List String)
  specialties : Option (List String)
deriving DecidableEq

/-- A request as consumed by the matcher (title, description and the other
unread fields are omitted). -/
structure RequestWithRequirements where
  projectType : String
  budgetMin : Option ℚ
  budgetMax : Option ℚ
  requirements : Option RequestRequirements
deriving DecidableEq

/-- Matching configuration; every field is optional and falls back to
`DEFAULT_CONFIG`. -/
structure MatchingConfig where
  techStackWeight : Option ℚ := none
  specialtyWeight : Option ℚ := none
  budgetWeight : Option ℚ := none
  ratingWeight : Option ℚ := none
  minScore : Option ℚ := none
  maxResults : Option ℕ := none
deriving DecidableEq

/-- A fully resolved configuration, the result of the spread-merge
`{ ...DEFAULT_CONFIG, ...config }`. -/
structure ResolvedConfig where
  techStackWeight : ℚ
  specialtyWeight : ℚ
  budgetWeight : ℚ
  ratingWeight : ℚ
  minScore : ℚ
  maxResults : ℕ
deriving DecidableEq

/-- `{ ...DEFAULT_CONFIG, ...config }`: each present field of `config`
overrides the default. -/
def resolveConfig (config : MatchingConfig) : ResolvedConfig where
  techStackWeight := config.techStackWeight.getD (2/5)
  specialtyWeight := config.specialtyWeight.getD (3/10)
  budgetWeight := config.budgetWeight.getD (1/5)
  ratingWeight := config.ratingWeight.getD (1/10)
  minScore := config.minScore.getD 30
  maxResults := config.maxResults.getD 20

/-- Optional hard filters of `findMatchingCompanies`. -/
structure MatchingFilters where
  verifiedOnly : Option Bool := none
  minRating : Option ℚ := none
deriving DecidableEq

/-- A company paired with its computed match score. -/
structure MatchedCompany where
  company : CompanyWithRelations
  matchScore : MatchScore
deriving DecidableEq

/-! ### `lib/matching/algorithm.ts` -/

/-- `calculateTechStackScore`: Jaccard similarity of the lowercased
tech-stack name sets, scaled to 40 points; `matched` is the filtered
lowercased request set. -/
def calculateTechStackScore (companyTechStacks requestedTechStacks : List String) :
    ScoreWithMatched :=
  if requestedTechStacks.isEmpty then ⟨40, []⟩
  else if companyTechStacks.isEmpty then ⟨0, []⟩
  else
    let companySet := jsSetList (companyTechStacks.map jsToLower)
    let requestSet := jsSetList (requestedTechStacks.map jsToLower)
    let intersection := requestSet.filter (fun tech => tech ∈ companySet)
    let union := jsSetList (companySet ++ requestSet)
    let similarity : ℚ := (intersection.length : ℚ) / (union.length : ℚ)
    ⟨jsRound (similarity * 40), intersection⟩

/-- The fixed project-type keyword table of `calculateSpecialtyScore`. -/
def projectTypeMap (projectType : String) : List String :=
  if projectType = "WEB_DEVELOPMENT" then
    ["web development", "frontend", "backend", "fullstack"]
  else if projectType = "MOBILE_APP" then
    ["mobile development", "ios", "android", "mobile app"]
  else if projectType = "AI_ML" then
    ["ai", "machine learning", "deep learning", "data science"]
  else if projectType = "SYSTEM_INTEGRATION" then
    ["system integration", "api integration", "enterprise"]
  else if projectType = "CONSULTING" then
    ["consulting", "strategy", "advisory"]
  else if projectType = "MAINTENANCE" then
    ["maintenance", "support", "bug fixing"]
  else []

/-- `calculateSpecialtyScore`.  The primary channel uses
`Array.prototype.some`, which stops at the first matching keyword, so only
that keyword is pushed onto `matched`; the secondary channel uses `filter`,
which pushes every matching requested specialty.  The secondary fraction
divides by the raw `requestedSpecialties.length`, duplicates included. -/
def calculateSpecialtyScore (companySpecialties : List String) (projectType : String)
    (requestedSpecialties : Option (List String)) : ScoreWithMatched :=
  if companySpecialties.isEmpty then ⟨0, []⟩
  else
    let companySet := jsSetList (companySpecialties.map jsToLower)
    let projectKeywords := projectTypeMap projectType
    let firstKeyword :=
      projectKeywords.find? (fun keyword =>
        companySet.any (fun spec => jsIncludes spec (jsToLower keyword)))
    let primaryMatched := match firstKeyword with
      | some keyword => [keyword]
      | none => []
    let primaryScore : ℤ := if firstKeyword.isSome then 15 else 0
    match requestedSpecialties with
    | some rs =>
      if 0 < rs.length then
        let requestSet := jsSetList (rs.map jsToLower)
        let intersection := requestSet.filter (fun spec =>
          companySet.any (fun cs => jsIncludes cs spec || jsIncludes spec cs))
        let secondaryScore := jsRound ((intersection.length : ℚ) / (rs.length : ℚ) * 15)
        ⟨min (primaryScore + secondaryScore) 30, primaryMatched ++ intersection⟩
      else ⟨min (primaryScore + 10) 30, primaryMatched⟩
    | none => ⟨min (primaryScore + 10) 30, primaryMatched⟩

/-- `calculateBudgetScore`.  The guard `!requestBudgetMin ||
!requestBudgetMax` tests JavaScript falsiness, so a bound that is absent
or equal to 0 takes the neutral branch. -/
def calculateBudgetScore (requestBudgetMin requestBudgetMax : Option ℚ) :
    BudgetScoreResult :=
  match requestBudgetMin, requestBudgetMax with
  | some bmin, some bmax =>
    if bmin = 0 ∨ bmax = 0 then ⟨15, .acceptable⟩
    else
      let budgetMid := (bmin + bmax) / 2
      let budgetRange := bmax - bmin
      let rr := budgetRange / budgetMid
      let base : ℤ × BudgetCompatibility :=
        if rr < 1/5 then (12, .good)
        else if rr < 1/2 then (18, .perfect)
        else if rr < 1 then (15, .good)
        else (10, .acceptable)
      let adjusted : ℤ :=
        if budgetMid < 100000 then max (base.1 - 2) 8
        else if budgetMid > 10000000 then min (base.1 + 2) 20
        else base.1
      ⟨adjusted, base.2⟩
  | _, _ => ⟨15, .acceptable⟩

/-- `calculateRatingScore`: neutral 5 when unreviewed, otherwise a 0-8 base
from the star rating plus a review-volume bonus, rounded and capped at
10. -/
def calculateRatingScore (averageRating : ℚ) (reviewCount : ℕ) : ℤ :=
  if reviewCount = 0 then 5
  else
    let base := averageRating / 5 * 8
    let score :=
      if 50 ≤ reviewCount then base + 2
      else if 20 ≤ reviewCount then base + 3/2
      else if 10 ≤ reviewCount then base + 1
      else if 5 ≤ reviewCount then base + 1/2
      else base
    min (jsRound score) 10

/-- `calculateMatchScore`.  The merged config is computed in the source but
never read (the weight fields are inert), so the `config` parameter is
accepted and ignored here exactly as there. -/
def calculateMatchScore (company : CompanyWithRelations)
    (request : RequestWithRequirements) (_config : MatchingConfig) : MatchScore :=
  let companyTechStacks := company.techStacks.map (fun ct => ct.techStack.name)
  let companySpecialties := company.specialties.map (fun cs => cs.specialty.name)
  let requestedTechStacks := (request.requirements.bind (fun rq => rq.techStacks)).getD []
  let requestedSpecialties := (request.requirements.bind (fun rq => rq.specialties)).getD []
  let techStackResult := calculateTechStackScore companyTechStacks requestedTechStacks
  let specialtyResult :=
    calculateSpecialtyScore companySpecialties request.projectType (some requestedSpecialties)
  let budgetResult := calculateBudgetScore request.budgetMin request.budgetMax
  let ratingScore := calculateRatingScore company.averageRating company.reviewCount
  { total := jsRound ((techStackResult.score + specialtyResult.score +
        budgetResult.score + ratingScore : ℤ) : ℚ)
    techStackScore := techStackResult.score
    specialtyScore := specialtyResult.score
    budgetScore := budgetResult.score
    ratingScore := ratingScore
    matchedTechStacks := techStackResult.matched
    matchedSpecialties := specialtyResult.matched
    budgetCompatibility := budgetResult.compatibility }

/-- The `minRating` filter of `findMatchingCompanies`; the JavaScript
truthiness test skips the check when `minRating` is absent or 0. -/
def minRatingBlocks (minRating : Option ℚ) (avg : ℚ) : Bool :=
  match minRating with
  | some m => if m = 0 then false else decide (avg < m)
  | none => false

/-- The filter callback of `findMatchingCompanies`: rejects unverified
companies under `verifiedOnly`, companies below `minRating`, and companies
not accepting new projects. -/
def passesFilters (filters : MatchingFilters) (company : CompanyWithRelations) : Bool :=
  if filters.verifiedOnly.getD false && !company.isVerified then false
  else if minRatingBlocks filters.minRating company.averageRating then false
  else if !company.acceptsNewProjects then false
  else true

/-- The hard-filter stage of `findMatchingCompanies`: the filter callback
runs only when the optional `filters` argument was provided. -/
def filteredCompanies (companies : List CompanyWithRelations)
    (filters : Option MatchingFilters) : List CompanyWithRelations :=
  match filters with
  | some f => companies.filter (passesFilters f)
  | none => companies

/-- The scored-and-thresholded stage of `findMatchingCompanies`: score each
surviving company, then keep the entries with `total ≥ cfg.minScore`. -/
def qualifiedMatches (companies : List CompanyWithRelations)
    (request : RequestWithRequirements) (filters : Option MatchingFilters)
    (config : MatchingConfig) : List MatchedCompany :=
  ((filteredCompanies companies filters).map (fun company =>
      { company := company, matchScore := calculateMatchScore company request config })).filter
    (fun mc => (resolveConfig config).minScore ≤ (mc.matchScore.total : ℚ))

/-- The ordering used by the sort comparator `(a, b) => b.matchScore.total -
a.matchScore.total`: `a` may precede `b` when its total is at least as
large. -/
def matchSortLe (a b : MatchedCompany) : Bool :=
  decide (b.matchScore.total ≤ a.matchScore.total)

/-- `findMatchingCompanies`: hard filters, scoring, threshold, stable
descending sort, truncation to `maxResults`.  `Array.prototype.sort` is
stable, which the stable merge sort reproduces. -/
def findMatchingCompanies (companies : List CompanyWithRelations)
    (request : RequestWithRequirements) (filters : Option MatchingFilters)
    (config : MatchingConfig) : List MatchedCompany :=
  ((qualifiedMatches companies request filters config).mergeSort matchSortLe).take
    (resolveConfig config).maxResults

/-! ### Proposal lifecycle

The persisted state: `RequestCompany` rows (proposals) and `Request` rows,
keyed by string ids.  `now` is passed explicitly where the routes call
`new Date()`, and Prisma-generated ids are passed explicitly where the
routes rely on id generation. -/

/-- `RequestCompanyStatus` of the Prisma schema. -/
inductive ProposalStatus
  | pending
  | responded
  | selected
  | rejected
deriving DecidableEq

/-- Request status values the proposal routes read and write. -/
inductive RequestStatus
  | draft
  | published
  | closed
deriving DecidableEq

/-- A `RequestCompany` row (a proposal).  The relation fields the routes
read only for authorization are omitted. -/
structure ProposalRow where
  id : String
  requestId : String
  companyId : String
  estimatedCost : ℤ
  estimatedDuration : String
  proposal : String
  attachments : List String
  status : ProposalStatus
  respondedAt : Option ℕ
  selectedAt : Option ℕ
deriving DecidableEq

/-- A `Request` row, reduced to the fields the proposal routes touch. -/
structure RequestRow where
  id : String
  status : RequestStatus
  closedAt : Option ℕ
deriving DecidableEq

/-- The persisted state the proposal routes read and write. -/
structure DB where
  requests : List RequestRow
  proposals : List ProposalRow
deriving DecidableEq

/-- Failure modes of POST `/api/proposals/[id]/select` (authentication and
ownership failures are omitted with their checks). -/
inductive SelectError
  | notFound
  | requestMissing
  | notResponded
  | requestNotOpen
deriving DecidableEq

/-- Failure modes of PATCH `/api/proposals/[id]`. -/
inductive PatchError
  | notFound
  | requestMissing
  | respondedNotAllowed
deriving DecidableEq

/-- Failure modes of POST `/api/requests/[id]/proposals`. -/
inductive SubmitError
  | notVerified
  | requestNotFound
  | requestNotPublished
  | alreadySubmitted
  | validationFailed
deriving DecidableEq

/-- The per-row effect of the select transaction on the proposal table:
write 1 (`tx.requestCompany.update`) selects the target row, write 2
(`tx.requestCompany.updateMany` with `requestId`, `id != pid`,
`status: RESPONDED`) rejects the responded siblings, all other rows are
untouched. -/
def selectUpdateProposal (pid rid : String) (now : ℕ) (p : ProposalRow) : ProposalRow :=
  if p.id = pid then { p with status := .selected, selectedAt := some now }
  else if p.requestId = rid ∧ p.id ≠ pid ∧ p.status = .responded then
    { p with status := .rejected }
  else p

/-- The per-row effect of the select transaction on the request table:
write 3 (`tx.request.update`) closes the parent request. -/
def selectUpdateRequest (rid : String) (now : ℕ) (q : RequestRow) : RequestRow :=
  if q.id = rid then { q with status := .closed, closedAt := some now } else q

/-- POST `/api/proposals/[id]/select`: guard that the proposal is
`RESPONDED` and its request `PUBLISHED`, then atomically set the proposal
to `SELECTED` stamping `selectedAt`, set every *other* `RESPONDED`
proposal of the same request to `REJECTED`, and close the request.  The
`prisma.$transaction` block is modelled as the single simultaneous update
below. -/
def selectProposal (db : DB) (pid : String) (now : ℕ) : Except SelectError DB :=
  match db.proposals.find? (fun p => p.id = pid) with
  | none => .error .notFound
  | some proposal =>
    match db.requests.find? (fun r => r.id = proposal.requestId) with
    | none => .error .requestMissing
    | some request =>
      if proposal.status ≠ .responded then .error .notResponded
      else if request.status ≠ .published then .error .requestNotOpen
      else .ok
        { requests := db.requests.map (selectUpdateRequest proposal.requestId now)
          proposals := db.proposals.map (selectUpdateProposal pid proposal.requestId now) }

/-- PATCH `/api/proposals/[id]`: after the ownership check the only guard
is that the target status is not `RESPONDED`; the row is then updated to
the requested status regardless of its current status, with `selectedAt`
stamped for `SELECTED` and cleared otherwise. -/
def patchProposalStatus (db : DB) (pid : String) (newStatus : ProposalStatus)
    (now : ℕ) : Except PatchError DB :=
  match db.proposals.find? (fun p => p.id = pid) with
  | none => .error .notFound
  | some proposal =>
    match db.requests.find? (fun r => r.id = proposal.requestId) with
    | none => .error .requestMissing
    | some _request =>
      if newStatus = .responded then .error .respondedNotAllowed
      else .ok
        { db with proposals := db.proposals.map (fun p =>
            if p.id = pid then
              { p with status := newStatus
                       selectedAt := if newStatus = .selected then some now else none }
            else p) }

/-- The company attached to the submitting session user. -/
structure CompanyAccount where
  id : String
  isVerified : Bool
deriving DecidableEq

/-- The zod-validated body of a proposal submission. -/
structure SubmitPayload where
  estimatedCost : ℤ
  estimatedDuration : String
  proposalText : String
  attachments : Option (List String)
deriving DecidableEq

/-- The zod `proposalSchema` checks (the URL-format check on attachments is
not modelled). -/
def validPayload (payload : SubmitPayload) : Bool :=
  decide (0 < payload.estimatedCost) &&
  decide (1 ≤ payload.estimatedDuration.length) &&
  decide (50 ≤ payload.proposalText.length)

/-- POST `/api/requests/[id]/proposals`: company must be verified, request
must exist and be `PUBLISHED`, an existing proposal for the
`(requestId, companyId)` pair whose status is not `PENDING` aborts with a
conflict, then the body is validated and the row upserted to `RESPONDED`
with `respondedAt := now`. -/
def submitProposal (db : DB) (requestId : String) (company : CompanyAccount)
    (payload : SubmitPayload) (now : ℕ) (newId : String) : Except SubmitError DB :=
  if !company.isVerified then .error .notVerified
  else match db.requests.find? (fun r => r.id = requestId) with
  | none => .error .requestNotFound
  | some request =>
    if request.status ≠ .published then .error .requestNotPublished
    else
      let existing := db.proposals.find? (fun p =>
        p.requestId = requestId ∧ p.companyId = company.id)
      if existing.any (fun ep => ep.status ≠ ProposalStatus.pending) then
        .error .alreadySubmitted
      else if !validPayload payload then .error .validationFailed
      else .ok
        { db with proposals :=
            match existing with
            | some _ => db.proposals.map (fun p =>
                if p.requestId = requestId ∧ p.companyId = company.id then
                  { p with estimatedCost := payload.estimatedCost
                           estimatedDuration := payload.estimatedDuration
                           proposal := payload.proposalText
                           attachments := payload.attachments.getD []
                           status := .responded
                           respondedAt := some now }
                else p)
            | none => db.proposals ++
                [{ id := newId
                   requestId := requestId
                   companyId := company.id
                   estimatedCost := payload.estimatedCost
                   estimatedDuration := payload.estimatedDuration
                   proposal := payload.proposalText
                   attachments := payload.attachments.getD []
                   status := .responded
                   respondedAt := some now
                   selectedAt := none }] }

/-! ### Reference definitions taken from the specification text -/

/-- Jaccard similarity of two name lists viewed as sets, as the
specification defines it: `|A ∩ B| / |A ∪ B|`. -/
def jaccardSimilarity (a b : List String) : ℚ :=
  ((a.toFinset ∩ b.toFinset).card : ℚ) / ((a.toFinset ∪ b.toFinset).card : ℚ)

/-- The budget score exactly as the specification words it for two present
bounds: midpoint and range-ratio tiers, then the small/large-budget
adjustment that never touches the label. -/
def budgetScoreSpec (bmin bmax : ℚ) : BudgetScoreResult :=
  let midpoint := (bmin + bmax) / 2
  let rr := (bmax - bmin) / midpoint
  let base : ℤ × BudgetCompatibility :=
    if rr < 1/5 then (12, .good)
    else if rr < 1/2 then (18, .perfect)
    else if rr < 1 then (15, .good)
    else (10, .acceptable)
  let adjusted : ℤ :=
    if midpoint < 100000 then max (base.1 - 2) 8
    else if midpoint > 10000000 then min (base.1 + 2) 20
    else base.1
  ⟨adjusted, base.2⟩

/-! ### Concrete instances used by scenario theorems and witnesses -/

/-- The company of the end-to-end scenario: React/Node.js web shop rated
4.5 over 30 reviews. -/
def scenarioCompany : CompanyWithRelations :=
  { isVerified := true
    acceptsNewProjects := true
    averageRating := 9/2
    reviewCount := 30
    techStacks := [⟨⟨"React"⟩⟩, ⟨⟨"Node.js"⟩⟩]
    specialties := [⟨⟨"Web Development"⟩⟩] }

/-- The request of the end-to-end scenario. -/
def scenarioRequest : RequestWithRequirements :=
  { projectType := "WEB_DEVELOPMENT"
    budgetMin := some 1000000
    budgetMax := some 3000000
    requirements := some { techStacks := some ["react", "postgresql"], specialties := none } }

/-- A company that does not accept new projects but scores 60 against
`emptyRequest` (40 tech + 0 specialty + 15 budget + 5 rating). -/
def nonAcceptingCompany : CompanyWithRelations :=
  { isVerified := true
    acceptsNewProjects := false
    averageRating := 0
    reviewCount := 0
    techStacks := []
    specialties := [] }

/-- `nonAcceptingCompany` with the flag on; same score of 60. -/
def acceptingCompany : CompanyWithRelations :=
  { nonAcceptingCompany with acceptsNewProjects := true }

/-- A request with no requirements and no budget. -/
def emptyRequest : RequestWithRequirements :=
  { projectType := "OTHER", budgetMin := none, budgetMax := none, requirements := none }

/-- A proposal row with fixed filler fields. -/
def sampleProposal (id requestId companyId : String) (status : ProposalStatus) :
    ProposalRow :=
  { id := id
    requestId := requestId
    companyId := companyId
    estimatedCost := 1000000
    estimatedDuration := "3 months"
    proposal := "sample proposal narrative"
    attachments := []
    status := status
    respondedAt := some 1
    selectedAt := none }

/-- Request `r1` published, proposals `p1`, `p2` both `RESPONDED`. -/
def doubleSelectDB : DB :=
  { requests := [{ id := "r1", status := .published, closedAt := none }]
    proposals := [sampleProposal "p1" "r1" "c1" .responded,
                  sampleProposal "p2" "r1" "c2" .responded] }

/-- Request `r1` published with a single `SELECTED` proposal. -/
def selectedDB : DB :=
  { requests := [{ id := "r1", status := .published, closedAt := none }]
    proposals := [{ sampleProposal "p1" "r1" "c1" .selected with selectedAt := some 3 }] }

/-- Request `r1` published with a single `RESPONDED` proposal by company
`c1`. -/
def respondedDB : DB :=
  { requests := [{ id := "r1", status := .published, closedAt := none }]
    proposals := [sampleProposal "p1" "r1" "c1" .responded] }

/-- Request `r1` published with no proposals yet. -/
def freshDB : DB :=
  { requests := [{ id := "r1", status := .published, closedAt := none }]
    proposals := [] }

/-- Request `r1` published, proposals `p1`, `p2`, `p3` all `RESPONDED`. -/
def threeRespondedDB : DB :=
  { requests := [{ id := "r1", status := .published, closedAt := none }]
    proposals := [sampleProposal "p1" "r1" "c1" .responded,
                  sampleProposal "p2" "r1" "c2" .responded,
                  sampleProposal "p3" "r1" "c3" .responded] }

/-- A verified submitting company. -/
def submitCompany : CompanyAccount := { id := "c1", isVerified := true }

/-- A body that passes the zod schema (the narrative is 56 characters). -/
def samplePayload : SubmitPayload :=
  { estimatedCost := 2000000
    estimatedDuration := "2 months"
    proposalText := "We will deliver the project in two months with two devs."
    attachments := none }

deriving instance DecidableEq for Except

/-! ### Helper lemmas about the JavaScript primitives -/

lemma jsRound_eq_floor (q : ℚ) : jsRound q = ⌊q + 1/2⌋ := by
  rw [jsRound, Rat.floor_def', Rat.floor_def]

lemma jsRound_intCast (n : ℤ) : jsRound (n : ℚ) = n := by
  rw [jsRound_eq_floor, Int.floor_int_add]
  norm_num

lemma jsRound_le_jsRound {a b : ℚ} (h : a ≤ b) : jsRound a ≤ jsRound b := by
  rw [jsRound_eq_floor, jsRound_eq_floor]
  exact Int.floor_le_floor (by linarith)

lemma mem_jsSetListAux {α : Type} [DecidableEq α] (a : α) :
    ∀ (l seen : List α), a ∈ jsSetListAux seen l ↔ a ∈ l ∧ a ∉ seen := by
  intro l
  induction l with
  | nil => intro seen; simp [jsSetListAux]
  | cons x xs ih =>
    intro seen
    simp only [jsSetListAux]
    by_cases hx : x ∈ seen
    · rw [if_pos hx, ih seen, List.mem_cons]
      constructor
      · rintro ⟨h1, h2⟩
        exact ⟨Or.inr h1, h2⟩
      · rintro ⟨rfl | h1, h2⟩
        · exact absurd hx h2
        · exact ⟨h1, h2⟩
    · rw [if_neg hx, List.mem_cons, List.mem_cons, ih (x :: seen), List.mem_cons]
      constructor
      · rintro (rfl | ⟨h1, h2⟩)
        · exact ⟨Or.inl rfl, hx⟩
        · exact ⟨Or.inr h1, fun hs => h2 (Or.inr hs)⟩
      · rintro ⟨rfl | h1, h2⟩
        · exact Or.inl rfl
        · by_cases hax : a = x
          · exact Or.inl hax
          · exact Or.inr ⟨h1, fun hs => hs.elim hax h2⟩

lemma nodup_jsSetListAux {α : Type} [DecidableEq α] :
    ∀ (l seen : List α), (jsSetListAux seen l).Nodup
  | [], _ => by simp [jsSetListAux]
  | x :: xs, seen => by
    simp only [jsSetListAux]
    by_cases hx : x ∈ seen
    · rw [if_pos hx]
      exact nodup_jsSetListAux xs seen
    · rw [if_neg hx]
      refine List.nodup_cons.2 ⟨?_, nodup_jsSetListAux xs (x :: seen)⟩
      intro hmem
      exact ((mem_jsSetListAux x xs (x :: seen)).1 hmem).2 (List.mem_cons_self x seen)

lemma sublist_jsSetListAux {α : Type} [DecidableEq α] :
    ∀ (l seen : List α), (jsSetListAux seen l).Sublist l
  | [], _ => by simp [jsSetListAux]
  | x :: xs, seen => by
    simp only [jsSetListAux]
    by_cases hx : x ∈ seen
    · rw [if_pos hx]
      exact (sublist_jsSetListAux xs seen).trans (List.sublist_cons_self x xs)
    · rw [if_neg hx]
      exact (sublist_jsSetListAux xs (x :: seen)).cons₂ x

lemma mem_jsSetList {α : Type} [DecidableEq α] {a : α} {l : List α} :
    a ∈ jsSetList l ↔ a ∈ l := by
  simp [jsSetList, mem_jsSetListAux]

lemma nodup_jsSetList {α : Type} [DecidableEq α] {l : List α} : (jsSetList l).Nodup :=
  nodup_jsSetListAux l []

lemma jsSetList_sublist {α : Type} [DecidableEq α] (l : List α) : (jsSetList l).Sublist l :=
  sublist_jsSetListAux l []

lemma toFinset_jsSetList {α : Type} [DecidableEq α] (l : List α) :
    (jsSetList l).toFinset = l.toFinset := by
  ext a
  simp [List.mem_toFinset, mem_jsSetList]

lemma length_jsSetList {α : Type} [DecidableEq α] (l : List α) :
    (jsSetList l).length = l.toFinset.card := by
  rw [← toFinset_jsSetList]
  exact (List.toFinset_card_of_nodup nodup_jsSetList).symm

/-! ### Claim theorems -/

/-- Claim C7: on the scenario company (React/Node.js, Web Development,
rating 4.5 over 30 reviews) and the scenario request (WEB_DEVELOPMENT,
react+postgresql, budget 1M-3M), `calculateMatchScore` returns tech 13
matching ["react"], specialty 25, budget 10 "acceptable", rating 9 and
total 57. -/
theorem scenario_match_score :
    calculateMatchScore scenarioCompany scenarioRequest {} =
      { total := 57
        techStackScore := 13
        specialtyScore := 25
        budgetScore := 10
        ratingScore := 9
        matchedTechStacks := ["react"]
        matchedSpecialties := ["web development"]
        budgetCompatibility := .acceptable } := by
  with_unfolding_all decide

/-- Claim C10: a present-but-zero budget bound is falsy in JavaScript, so
`calculateBudgetScore` takes the neutral branch and returns score 15 and
"acceptable" whenever either bound is `some 0`, for every value of the
other bound. -/
theorem budget_zero_bound_neutral (a b : Option ℚ) :
    calculateBudgetScore (some 0) b = ⟨15, .acceptable⟩ ∧
    calculateBudgetScore a (some 0) = ⟨15, .acceptable⟩ := by
  constructor
  · cases b with
    | none => rfl
    | some x => simp [calculateBudgetScore]
  · cases a with
    | none => rfl
    | some x => simp [calculateBudgetScore]

/-- Witness for `budget_zero_bound_neutral` at the other bound 5 and 7. -/
theorem budget_zero_bound_neutral_witness :
    calculateBudgetScore (some 0) (some 5) = ⟨15, .acceptable⟩ ∧
    calculateBudgetScore (some 7) (some 0) = ⟨15, .acceptable⟩ :=
  ⟨(budget_zero_bound_neutral (some 7) (some 5)).1,
   (budget_zero_bound_neutral (some 7) (some 5)).2⟩

/-- Counterexample to claim C9 as stated: with both bounds present but the
minimum equal to 0, the code returns the neutral 15/"acceptable" instead
of the 10/"acceptable" the range-ratio rules of the claim prescribe. -/
theorem budget_zero_bound_counterexample :
    calculateBudgetScore (some 0) (some 1000000) = ⟨15, .acceptable⟩ ∧
    budgetScoreSpec 0 1000000 = ⟨10, .acceptable⟩ ∧
    calculateBudgetScore (some 0) (some 1000000) ≠ budgetScoreSpec 0 1000000 := by
  have h1 : calculateBudgetScore (some 0) (some 1000000) = ⟨15, .acceptable⟩ := by
    simp [calculateBudgetScore]
  have h2 : budgetScoreSpec 0 1000000 = ⟨10, .acceptable⟩ := by
    with_unfolding_all decide
  refine ⟨h1, h2, ?_⟩
  rw [h1, h2]
  decide

/-- Claim C9 (amended): with an absent bound the result is 15/"acceptable";
with both bounds present and positive the result follows the
specification's range-ratio table and tier adjustment exactly (a present
zero bound instead takes the neutral branch, see
`budget_zero_bound_counterexample`). -/
theorem budget_score_spec_correct (bmin bmax : ℚ) (hmin : 0 < bmin) (hmax : 0 < bmax) :
    (∀ b : Option ℚ, calculateBudgetScore none b = ⟨15, .acceptable⟩) ∧
    (∀ a : Option ℚ, calculateBudgetScore a none = ⟨15, .acceptable⟩) ∧
    calculateBudgetScore (some bmin) (some bmax) = budgetScoreSpec bmin bmax := by
  refine ⟨fun b => by cases b <;> rfl, fun a => by cases a <;> rfl, ?_⟩
  simp only [calculateBudgetScore, budgetScoreSpec]
  rw [if_neg]
  push_neg
  exact ⟨ne_of_gt hmin, ne_of_gt hmax⟩

/-- Witness for `budget_score_spec_correct`: the specification's "perfect"
example, bounds 1M and 1.3M, scoring 18. -/
theorem budget_score_spec_correct_witness :
    calculateBudgetScore (some 1000000) (some 1300000) = budgetScoreSpec 1000000 1300000 ∧
    budgetScoreSpec 1000000 1300000 = ⟨18, .perfect⟩ := by
  refine ⟨(budget_score_spec_correct 1000000 1300000 (by decide) (by decide)).2.2, ?_⟩
  with_unfolding_all decide

/-- Counterexample to the casing clause of claim C8: with requested set
["React"], the matched list is the lowercased ["react"], not the original
casing ["React"]. -/
theorem tech_stack_matched_casing_counterexample :
    (calculateTechStackScore ["React"] ["React"]).matched = ["react"] ∧
    (["react"] : List String) ≠ (["React"] : List String) := by
  with_unfolding_all decide

/-- Claim C1 is violated by the code (code bug): the PATCH status route
checks no current status and rejects no siblings, so two PATCH calls
select both proposals of request r1, leaving two SELECTED rows. -/
theorem patch_double_select :
    ((patchProposalStatus doubleSelectDB "p1" .selected 1).bind
        (fun db1 => patchProposalStatus db1 "p2" .selected 2)).map
      (fun db2 => db2.proposals.map (fun p => (p.id, p.requestId, p.status))) =
    .ok [("p1", "r1", ProposalStatus.selected), ("p2", "r1", ProposalStatus.selected)] := by
  decide

/-- Claim C3 is violated by the code (code bug): a SELECTED proposal is
terminal per the specification, yet the PATCH route happily moves it to
REJECTED (and clears `selectedAt`). -/
theorem patch_escapes_terminal :
    (patchProposalStatus selectedDB "p1" .rejected 7).map
      (fun db => db.proposals.map (fun p => (p.id, p.status, p.selectedAt))) =
    .ok [("p1", ProposalStatus.rejected, (none : Option ℕ))] := by
  decide

/-- Counterexample to claim C4 as stated: resubmission by the same company
while its proposal is RESPONDED is rejected with the conflict error, not
processed as an idempotent update. -/
theorem resubmission_after_responded_fails :
    submitProposal respondedDB "r1" submitCompany samplePayload 5 "p9" =
      .error .alreadySubmitted := by
  decide

lemma tech_inter_toFinset (C R : List String) :
    ((jsSetList R).filter (fun tech => tech ∈ jsSetList C)).toFinset =
      R.toFinset ∩ C.toFinset := by
  rw [List.toFinset_filter, toFinset_jsSetList]
  have h : Finset.filter (fun x => decide (x ∈ jsSetList C) = true) R.toFinset =
      Finset.filter (fun x => x ∈ C.toFinset) R.toFinset := by
    apply Finset.filter_congr
    intro x _
    simp [mem_jsSetList, List.mem_toFinset]
  rw [h, Finset.filter_mem_eq_inter]

lemma tech_inter_length (C R : List String) :
    ((jsSetList R).filter (fun tech => tech ∈ jsSetList C)).length =
      (R.toFinset ∩ C.toFinset).card := by
  rw [← tech_inter_toFinset C R]
  exact (List.toFinset_card_of_nodup (List.Nodup.filter _ nodup_jsSetList)).symm

lemma tech_union_length (C R : List String) :
    (jsSetList (jsSetList C ++ jsSetList R)).length = (C.toFinset ∪ R.toFinset).card := by
  rw [length_jsSetList, List.toFinset_append, toFinset_jsSetList, toFinset_jsSetList]

/-- The main branch of `calculateTechStackScore` with the set computations
expressed through `Finset` cardinalities. -/
lemma tech_stack_main (C R : List String) (hC : ¬C = []) (hR : ¬R = []) :
    calculateTechStackScore C R =
      ⟨jsRound ((((R.map jsToLower).toFinset ∩ (C.map jsToLower).toFinset).card : ℚ) /
          (((C.map jsToLower).toFinset ∪ (R.map jsToLower).toFinset).card : ℚ) * 40),
       (jsSetList (R.map jsToLower)).filter
         (fun tech => tech ∈ jsSetList (C.map jsToLower))⟩ := by
  rw [calculateTechStackScore, if_neg (by simp [hR]), if_neg (by simp [hC])]
  dsimp only
  rw [tech_inter_length (C.map jsToLower) (R.map jsToLower),
    tech_union_length (C.map jsToLower) (R.map jsToLower)]

/-- Claim C8 (amended): empty request gives 40 and no matches; empty
company (nonempty request) gives 0 and no matches; otherwise the score is
`round(Jaccard × 40)` over the lowercased sets and the matched list is the
*lowercased* intersection (a duplicate-free sublist of the lowercased
requested list), not the original casing; the score always lies in
[0, 40]. -/
theorem tech_stack_score_spec (companyTechStacks requestedTechStacks : List String) :
    (requestedTechStacks = [] →
      calculateTechStackScore companyTechStacks requestedTechStacks = ⟨40, []⟩) ∧
    (companyTechStacks = [] → requestedTechStacks ≠ [] →
      calculateTechStackScore companyTechStacks requestedTechStacks = ⟨0, []⟩) ∧
    (companyTechStacks ≠ [] → requestedTechStacks ≠ [] →
      (calculateTechStackScore companyTechStacks requestedTechStacks).score =
        jsRound (jaccardSimilarity (companyTechStacks.map jsToLower)
          (requestedTechStacks.map jsToLower) * 40) ∧
      (calculateTechStackScore companyTechStacks requestedTechStacks).matched.toFinset =
        (requestedTechStacks.map jsToLower).toFinset ∩
          (companyTechStacks.map jsToLower).toFinset ∧
      (calculateTechStackScore companyTechStacks requestedTechStacks).matched.Nodup ∧
      ((calculateTechStackScore companyTechStacks requestedTechStacks).matched).Sublist
        (requestedTechStacks.map jsToLower)) ∧
    (0 ≤ (calculateTechStackScore companyTechStacks requestedTechStacks).score ∧
      (calculateTechStackScore companyTechStacks requestedTechStacks).score ≤ 40) := by
  have h0 : jsRound 0 = 0 := by rw [jsRound_eq_floor]; norm_num
  have h40 : jsRound 40 = 40 := by rw [jsRound_eq_floor]; norm_num
  by_cases hR : requestedTechStacks = []
  · subst hR
    refine ⟨fun _ => by rw [calculateTechStackScore]; rfl, fun _ h => absurd rfl h, ?_, ?_⟩
    · intro _ h
      exact absurd rfl h
    · rw [calculateTechStackScore]
      exact ⟨by norm_num, by norm_num⟩
  · by_cases hC : companyTechStacks = []
    · subst hC
      have he : calculateTechStackScore [] requestedTechStacks = ⟨0, []⟩ := by
        rw [calculateTechStackScore, if_neg (by simp [hR])]
        rfl
      exact ⟨fun h => absurd h hR, fun _ _ => he, fun h _ => absurd rfl h,
        by rw [he]; exact ⟨le_refl 0, by norm_num⟩⟩
    · have hmain := tech_stack_main companyTechStacks requestedTechStacks hC hR
      set C' := companyTechStacks.map jsToLower with hCdef
      set R' := requestedTechStacks.map jsToLower with hRdef
      have hu_pos : 0 < (C'.toFinset ∪ R'.toFinset).card := by
        apply Finset.card_pos.2
        obtain ⟨x, hx⟩ := List.exists_mem_of_ne_nil R' (by simp [hRdef, hR])
        exact ⟨x, Finset.mem_union_right _ (List.mem_toFinset.2 hx)⟩
      have hiu : (R'.toFinset ∩ C'.toFinset).card ≤ (C'.toFinset ∪ R'.toFinset).card :=
        Finset.card_le_card
          ((Finset.inter_subset_left).trans (Finset.subset_union_right))
      have hsim0 : (0 : ℚ) ≤
          ((R'.toFinset ∩ C'.toFinset).card : ℚ) / ((C'.toFinset ∪ R'.toFinset).card : ℚ) :=
        div_nonneg (by positivity) (by positivity)
      have hsim1 : ((R'.toFinset ∩ C'.toFinset).card : ℚ) /
          ((C'.toFinset ∪ R'.toFinset).card : ℚ) ≤ 1 := by
        rw [div_le_one (by exact_mod_cast hu_pos)]
        exact_mod_cast hiu
      refine ⟨fun h => absurd h hR, fun h => absurd h hC, fun _ _ => ?_, ?_⟩
      · refine ⟨?_, ?_, ?_, ?_⟩
        · rw [hmain, jaccardSimilarity, Finset.inter_comm]
        · rw [hmain]
          exact tech_inter_toFinset C' R'
        · rw [hmain]
          exact List.Nodup.filter _ nodup_jsSetList
        · rw [hmain]
          exact (List.filter_sublist _).trans (jsSetList_sublist R')
      · rw [hmain]
        constructor
        · have := jsRound_le_jsRound (a := 0)
            (b := ((R'.toFinset ∩ C'.toFinset).card : ℚ) /
              ((C'.toFinset ∪ R'.toFinset).card : ℚ) * 40) (by nlinarith)
          rw [h0] at this
          exact this
        · have := jsRound_le_jsRound
            (a := ((R'.toFinset ∩ C'.toFinset).card : ℚ) /
              ((C'.toFinset ∪ R'.toFinset).card : ℚ) * 40) (b := 40) (by nlinarith)
          rw [h40] at this
          exact this

/-- Witness for `tech_stack_score_spec` at the specification's Jaccard
example, company {React, Node} against request {react, vue}. -/
theorem tech_stack_score_spec_witness :
    (calculateTechStackScore ["React", "Node"] ["react", "vue"]).score =
      jsRound (jaccardSimilarity (["React", "Node"].map jsToLower)
        (["react", "vue"].map jsToLower) * 40) ∧
    0 ≤ (calculateTechStackScore ["React", "Node"] ["react", "vue"]).score ∧
    (calculateTechStackScore ["React", "Node"] ["react", "vue"]).score = 13 := by
  have h := tech_stack_score_spec ["React", "Node"] ["react", "vue"]
  refine ⟨(h.2.2.1 (by decide) (by decide)).1, h.2.2.2.1, ?_⟩
  with_unfolding_all decide

/-- Counterexample to claim C5 as stated: with the `filters` argument
omitted the whole hard-filter block is skipped, so a company with
`acceptsNewProjects = false` is returned. -/
theorem hard_filter_skipped_without_filters :
    (findMatchingCompanies [nonAcceptingCompany] emptyRequest none {}).map
      (fun mc => mc.company.acceptsNewProjects) = [false] := by
  with_unfolding_all decide

lemma passesFilters_accepts {f : MatchingFilters} {c : CompanyWithRelations}
    (h : passesFilters f c = true) : c.acceptsNewProjects = true := by
  unfold passesFilters at h
  split_ifs at h with h1 h2 h3
  simpa using h3

/-- Claim C5 (amended): whenever the `filters` argument is provided (with
any field values), no returned company has `acceptsNewProjects = false`;
with `filters` omitted the hard-filter block does not run at all (see
`hard_filter_skipped_without_filters`). -/
theorem hard_filter_with_filters (companies : List CompanyWithRelations)
    (request : RequestWithRequirements) (f : MatchingFilters) (config : MatchingConfig) :
    ∀ mc ∈ findMatchingCompanies companies request (some f) config,
      mc.company.acceptsNewProjects = true := by
  intro mc hmc
  have h1 : mc ∈ (qualifiedMatches companies request (some f) config).mergeSort matchSortLe :=
    List.take_subset _ _ hmc
  have h2 : mc ∈ qualifiedMatches companies request (some f) config :=
    List.mem_mergeSort.1 h1
  rw [qualifiedMatches] at h2
  obtain ⟨company, hcomp, rfl⟩ := List.mem_map.1 (List.mem_filter.1 h2).1
  have hpass : passesFilters f company = true := by
    rw [filteredCompanies] at hcomp
    exact List.of_mem_filter hcomp
  exact passesFilters_accepts hpass

/-- Witness for `hard_filter_with_filters` at a singleton accepted
company. -/
theorem hard_filter_with_filters_witness :
    (MatchedCompany.mk acceptingCompany
      (calculateMatchScore acceptingCompany emptyRequest {})).company.acceptsNewProjects =
      true :=
  hard_filter_with_filters [acceptingCompany] emptyRequest {} {} _
    (by with_unfolding_all decide)

lemma matchSortLe_trans : ∀ a b c : MatchedCompany,
    matchSortLe a b = true → matchSortLe b c = true → matchSortLe a c = true := by
  intro a b c hab hbc
  simp only [matchSortLe, decide_eq_true_eq] at *
  exact le_trans hbc hab

lemma matchSortLe_total : ∀ a b : MatchedCompany,
    (matchSortLe a b || matchSortLe b a) = true := by
  intro a b
  simp only [matchSortLe, Bool.or_eq_true, decide_eq_true_eq]
  exact le_total _ _

/-- Claim C6: every returned entry scores at least `minScore` (default
30); the result is sorted non-increasing by total; equal-score entries
keep their relative order from the scored-and-thresholded stage (the
filter of the result by any total value is a sublist of the corresponding
filter of `qualifiedMatches`); and at most `maxResults` (default 20)
entries are returned. -/
theorem find_matching_ranked (companies : List CompanyWithRelations)
    (request : RequestWithRequirements) (filters : Option MatchingFilters)
    (config : MatchingConfig) :
    (∀ mc ∈ findMatchingCompanies companies request filters config,
      (resolveConfig config).minScore ≤ (mc.matchScore.total : ℚ)) ∧
    (findMatchingCompanies companies request filters config).Pairwise
      (fun a b => b.matchScore.total ≤ a.matchScore.total) ∧
    (∀ t : ℤ, (((findMatchingCompanies companies request filters config).filter
        (fun mc => mc.matchScore.total = t)).Sublist
      ((qualifiedMatches companies request filters config).filter
        (fun mc => mc.matchScore.total = t)))) ∧
    (findMatchingCompanies companies request filters config).length ≤
      (resolveConfig config).maxResults := by
  set q := qualifiedMatches companies request filters config with hq
  have hfind : findMatchingCompanies companies request filters config =
      (q.mergeSort matchSortLe).take (resolveConfig config).maxResults := by
    rw [findMatchingCompanies, hq]
  refine ⟨?_, ?_, ?_, ?_⟩
  · intro mc hmc
    rw [hfind] at hmc
    have h1 : mc ∈ q := List.mem_mergeSort.1 (List.take_subset _ _ hmc)
    rw [hq, qualifiedMatches] at h1
    simpa using (List.mem_filter.1 h1).2
  · have hs := List.sorted_mergeSort matchSortLe_trans matchSortLe_total q
    have hs2 : (q.mergeSort matchSortLe).Pairwise
        (fun a b => b.matchScore.total ≤ a.matchScore.total) := by
      refine hs.imp ?_
      intro a b h
      simpa [matchSortLe] using h
    rw [hfind]
    exact hs2.sublist (List.take_sublist _ _)
  · intro t
    have hA_all : ∀ a ∈ q.filter (fun mc => mc.matchScore.total = t),
        a.matchScore.total = t := by
      intro a ha
      simpa using (List.mem_filter.1 ha).2
    have hA_pw : (q.filter (fun mc => mc.matchScore.total = t)).Pairwise
        (fun a b => matchSortLe a b = true) := by
      apply List.pairwise_of_forall_mem_list
      intro a ha b hb
      simp only [matchSortLe, decide_eq_true_eq]
      rw [hA_all a ha, hA_all b hb]
    have h1 : (q.filter (fun mc => mc.matchScore.total = t)).Sublist
        (q.mergeSort matchSortLe) :=
      List.sublist_mergeSort matchSortLe_trans matchSortLe_total hA_pw
        (List.filter_sublist q)
    have h2 : (q.filter (fun mc => mc.matchScore.total = t)).filter
        (fun mc => mc.matchScore.total = t) = q.filter (fun mc => mc.matchScore.total = t) := by
      apply List.filter_eq_self.2
      intro a ha
      simpa using (List.mem_filter.1 ha).2
    have h3 := List.Sublist.filter (fun mc : MatchedCompany =>
      decide (mc.matchScore.total = t)) h1
    rw [h2] at h3
    have h4 : ((q.mergeSort matchSortLe).filter
        (fun mc => mc.matchScore.total = t)).length =
        (q.filter (fun mc => mc.matchScore.total = t)).length :=
      List.Perm.length_eq (List.Perm.filter _ (List.mergeSort_perm q _))
    have h5 : (q.mergeSort matchSortLe).filter (fun mc => mc.matchScore.total = t) =
        q.filter (fun mc => mc.matchScore.total = t) :=
      (h3.eq_of_length h4.symm).symm
    have h6 := List.Sublist.filter (fun mc : MatchedCompany =>
      decide (mc.matchScore.total = t))
      (List.take_sublist (resolveConfig config).maxResults (q.mergeSort matchSortLe))
    rw [h5] at h6
    rw [hfind]
    exact h6
  · rw [hfind]
    simp only [List.length_take]
    exact inf_le_left

/-- Witness for `find_matching_ranked` at a singleton company list with
default config. -/
theorem find_matching_ranked_witness :
    (30 : ℚ) ≤ ((MatchedCompany.mk acceptingCompany
      (calculateMatchScore acceptingCompany emptyRequest {})).matchScore.total : ℚ) ∧
    (findMatchingCompanies [acceptingCompany] emptyRequest none {}).length ≤ 20 := by
  have h := find_matching_ranked [acceptingCompany] emptyRequest none {}
  exact ⟨h.1 _ (by with_unfolding_all decide), h.2.2.2⟩

/-- Claim C4 (amended): with the request published, the company verified
and a valid body, submission creates a RESPONDED proposal when none exists
for the pair, updates the existing proposal to RESPONDED (resetting
`respondedAt`) only when it is still PENDING, and fails with the conflict
error whenever the existing proposal is RESPONDED, SELECTED or REJECTED —
not only in the two terminal states the claim names. -/
theorem submission_guard_spec
    (db : DB) (requestId : String) (company : CompanyAccount) (payload : SubmitPayload)
    (now : ℕ) (newId : String) (request : RequestRow)
    (hreq : db.requests.find? (fun r => r.id = requestId) = some request)
    (hpub : request.status = .published)
    (hver : company.isVerified = true)
    (hval : validPayload payload = true) :
    (db.proposals.find? (fun p => p.requestId = requestId ∧ p.companyId = company.id) =
        none →
      ∃ db' : DB, submitProposal db requestId company payload now newId = .ok db' ∧
        db'.requests = db.requests ∧
        ∃ newRow : ProposalRow, db'.proposals = db.proposals ++ [newRow] ∧
          newRow.requestId = requestId ∧ newRow.companyId = company.id ∧
          newRow.status = .responded ∧ newRow.respondedAt = some now) ∧
    (∀ ep, db.proposals.find?
        (fun p => p.requestId = requestId ∧ p.companyId = company.id) = some ep →
      ep.status = .pending →
      ∃ db' : DB, submitProposal db requestId company payload now newId = .ok db' ∧
        db'.requests = db.requests ∧
        db'.proposals.map (fun p => p.id) = db.proposals.map (fun p => p.id) ∧
        (∃ p ∈ db'.proposals, p.requestId = requestId ∧ p.companyId = company.id) ∧
        ∀ p ∈ db'.proposals, p.requestId = requestId → p.companyId = company.id →
          p.status = .responded ∧ p.respondedAt = some now) ∧
    (∀ ep, db.proposals.find?
        (fun p => p.requestId = requestId ∧ p.companyId = company.id) = some ep →
      ep.status ≠ .pending →
      submitProposal db requestId company payload now newId =
        .error .alreadySubmitted) := by
  refine ⟨?_, ?_, ?_⟩
  · intro hnone
    refine ⟨{ requests := db.requests
              proposals := db.proposals ++
                [{ id := newId
                   requestId := requestId
                   companyId := company.id
                   estimatedCost := payload.estimatedCost
                   estimatedDuration := payload.estimatedDuration
                   proposal := payload.proposalText
                   attachments := payload.attachments.getD []
                   status := .responded
                   respondedAt := some now
                   selectedAt := none }] }, ?_, rfl, ?_⟩
    · have hnone' : db.proposals.find?
          (fun p => decide (p.requestId = requestId) && decide (p.companyId = company.id)) =
          none := by simpa using hnone
      simp [submitProposal, hver, hreq, hpub, hnone', hval]
    · exact ⟨_, rfl, rfl, rfl, rfl, rfl⟩
  · intro ep hep hpend
    refine ⟨{ requests := db.requests
              proposals := db.proposals.map (fun p =>
                if p.requestId = requestId ∧ p.companyId = company.id then
                  { p with estimatedCost := payload.estimatedCost
                           estimatedDuration := payload.estimatedDuration
                           proposal := payload.proposalText
                           attachments := payload.attachments.getD []
                           status := .responded
                           respondedAt := some now }
                else p) }, ?_, rfl, ?_, ?_, ?_⟩
    · have hep' : db.proposals.find?
          (fun p => decide (p.requestId = requestId) && decide (p.companyId = company.id)) =
          some ep := by simpa using hep
      simp [submitProposal, hver, hreq, hpub, hep', hpend, hval]
    · rw [List.map_map]
      apply List.map_congr_left
      intro x _
      by_cases hx : x.requestId = requestId ∧ x.companyId = company.id <;> simp [hx]
    · have hepmem : ep ∈ db.proposals := List.mem_of_find?_eq_some hep
      have heppair : ep.requestId = requestId ∧ ep.companyId = company.id := by
        simpa using List.find?_some hep
      refine ⟨_, List.mem_map_of_mem _ hepmem, ?_⟩
      simp [heppair]
    · intro p hp hp1 hp2
      obtain ⟨x, hx, rfl⟩ := List.mem_map.1 hp
      by_cases hxpair : x.requestId = requestId ∧ x.companyId = company.id
      · simp [hxpair]
      · simp only [if_neg hxpair] at hp1 hp2 ⊢
        exact absurd ⟨hp1, hp2⟩ hxpair
  · intro ep hep hne
    simp only [submitProposal, hver, Bool.not_true, Bool.false_eq_true, if_false, hreq,
      hpub, ne_eq, not_true_eq_false, hep, Option.any_some]
    rw [if_pos (by simpa using hne)]

/-- Witness for `submission_guard_spec`: first submission against the
fresh published request creates the RESPONDED row. -/
theorem submission_guard_spec_witness :
    ∃ db' : DB, submitProposal freshDB "r1" submitCompany samplePayload 7 "p1" = .ok db' ∧
      db'.requests = freshDB.requests ∧
      ∃ newRow : ProposalRow, db'.proposals = freshDB.proposals ++ [newRow] ∧
        newRow.requestId = "r1" ∧ newRow.companyId = submitCompany.id ∧
        newRow.status = .responded ∧ newRow.respondedAt = some 7 :=
  (submission_guard_spec freshDB "r1" submitCompany samplePayload 7 "p1"
    { id := "r1", status := .published, closedAt := none }
    (by decide) (by decide) (by decide) (by decide)).1 (by decide)

lemma selectUpdateProposal_id (pid rid : String) (now : ℕ) (p : ProposalRow) :
    (selectUpdateProposal pid rid now p).id = p.id := by
  unfold selectUpdateProposal
  split_ifs <;> rfl

lemma selectUpdateProposal_requestId (pid rid : String) (now : ℕ) (p : ProposalRow) :
    (selectUpdateProposal pid rid now p).requestId = p.requestId := by
  unfold selectUpdateProposal
  split_ifs <;> rfl

lemma selectUpdateRequest_id (rid : String) (now : ℕ) (q : RequestRow) :
    (selectUpdateRequest rid now q).id = q.id := by
  unfold selectUpdateRequest
  split_ifs <;> rfl

lemma filter_selected_map (pid : String) (f : ProposalRow → ProposalRow) :
    ∀ l : List ProposalRow,
      (∀ p ∈ l, (f p).id = p.id) →
      (∀ p ∈ l, ((f p).status = ProposalStatus.selected ↔ p.id = pid)) →
      (l.map (fun p => p.id)).Nodup → pid ∈ l.map (fun p => p.id) →
      ((l.map f).filter (fun p => p.status = ProposalStatus.selected)).map
        (fun p => p.id) = [pid]
  | [], _, _, _, hmem => by simp at hmem
  | a :: t, hid, hsel, hnd, hmem => by
    have hnd' : (a.id :: t.map (fun p => p.id)).Nodup := by
      rw [List.map_cons] at hnd
      exact hnd
    have hcons := List.nodup_cons.1 hnd'
    simp only [List.map_cons, List.filter_cons]
    by_cases ha : a.id = pid
    · have hfa : (f a).status = .selected := (hsel a (List.mem_cons_self a t)).2 ha
      rw [if_pos (by simp [hfa])]
      have htail : (t.map f).filter (fun p => p.status = ProposalStatus.selected) = [] := by
        apply List.filter_eq_nil_iff.2
        intro p hp
        obtain ⟨x, hx, rfl⟩ := List.mem_map.1 hp
        have hxne : ¬x.id = pid := by
          intro hxe
          refine hcons.1 ?_
          rw [ha, ← hxe]
          exact List.mem_map_of_mem _ hx
        simp [hsel x (List.mem_cons_of_mem a hx), hxne]
      rw [htail]
      simp [hid a (List.mem_cons_self a t), ha]
    · have hfa : ¬(f a).status = .selected := fun h =>
        ha ((hsel a (List.mem_cons_self a t)).1 h)
      rw [if_neg (by simp [hfa])]
      have hmem' : pid ∈ t.map (fun p => p.id) := by
        rw [List.map_cons] at hmem
        rcases List.mem_cons.1 hmem with h | h
        · exact absurd h.symm ha
        · exact h
      exact filter_selected_map pid f t
        (fun p hp => hid p (List.mem_cons_of_mem a hp))
        (fun p hp => hsel p (List.mem_cons_of_mem a hp))
        hcons.2 hmem'

/-- Claim C2: on a published request whose proposals are all RESPONDED
(with unique row ids), selecting proposal `k` succeeds and atomically
yields a state where `k` is the unique SELECTED proposal with `selectedAt`
stamped, every other proposal of the request is REJECTED, the request is
CLOSED, and every further selection call against the request's proposals
fails with the state-conflict error of the not-RESPONDED guard. -/
theorem select_postcondition
    (db : DB) (pid : String) (k : ProposalRow) (r : RequestRow) (now : ℕ)
    (hfind : db.proposals.find? (fun p => p.id = pid) = some k)
    (hreq : db.requests.find? (fun q => q.id = k.requestId) = some r)
    (hpub : r.status = .published)
    (hall : ∀ p ∈ db.proposals, p.requestId = k.requestId ∧ p.status = .responded)
    (hnodup : (db.proposals.map (fun p => p.id)).Nodup) :
    ∃ db' : DB,
      selectProposal db pid now = .ok db' ∧
      (∀ p ∈ db'.proposals, p.requestId = k.requestId ∧
        (p.id = pid → p.status = .selected ∧ p.selectedAt = some now) ∧
        (p.id ≠ pid → p.status = .rejected)) ∧
      db'.proposals.map (fun p => p.id) = db.proposals.map (fun p => p.id) ∧
      ((db'.proposals.filter (fun p => p.status = .selected)).map (fun p => p.id)) =
        [pid] ∧
      (∀ q ∈ db'.requests, q.id = k.requestId → q.status = .closed) ∧
      (∀ p2 ∈ db'.proposals, ∀ now2 : ℕ,
        selectProposal db' p2.id now2 = .error .notResponded) := by
  have hkmem : k ∈ db.proposals := List.mem_of_find?_eq_some hfind
  have hkid : k.id = pid := by simpa using List.find?_some hfind
  have hrid : r.id = k.requestId := by simpa using List.find?_some hreq
  have hkstat : k.status = .responded := (hall k hkmem).2
  refine ⟨{ requests := db.requests.map (selectUpdateRequest k.requestId now)
            proposals := db.proposals.map (selectUpdateProposal pid k.requestId now) },
    ?_, ?_, ?_, ?_, ?_, ?_⟩
  · simp [selectProposal, hfind, hreq, hkstat, hpub]
  · intro p hp
    obtain ⟨x, hx, rfl⟩ := List.mem_map.1 hp
    obtain ⟨hxr, hxs⟩ := hall x hx
    unfold selectUpdateProposal
    by_cases hxid : x.id = pid
    · rw [if_pos hxid]
      exact ⟨hxr, fun _ => ⟨rfl, rfl⟩, fun hne => absurd hxid hne⟩
    · rw [if_neg hxid, if_pos ⟨hxr, hxid, hxs⟩]
      exact ⟨hxr, fun he => absurd he hxid, fun _ => rfl⟩
  · rw [List.map_map]
    apply List.map_congr_left
    intro x _
    exact selectUpdateProposal_id pid k.requestId now x
  · apply filter_selected_map pid (selectUpdateProposal pid k.requestId now) db.proposals
    · intro p _
      exact selectUpdateProposal_id pid k.requestId now p
    · intro p hp
      obtain ⟨hpr, hps⟩ := hall p hp
      unfold selectUpdateProposal
      by_cases hpid : p.id = pid
      · rw [if_pos hpid]
        simp [hpid]
      · rw [if_neg hpid, if_pos ⟨hpr, hpid, hps⟩]
        simp [hpid]
    · exact hnodup
    · exact List.mem_map.2 ⟨k, hkmem, hkid⟩
  · intro q hq hqid
    obtain ⟨x, hx, rfl⟩ := List.mem_map.1 hq
    unfold selectUpdateRequest
    unfold selectUpdateRequest at hqid
    by_cases hxid : x.id = k.requestId
    · rw [if_pos hxid]
    · rw [if_neg hxid] at hqid ⊢
      exact absurd hqid hxid
  · intro p2 hp2 now2
    have helem : ∀ p ∈ db.proposals.map (selectUpdateProposal pid k.requestId now),
        p.requestId = k.requestId ∧ ¬p.status = ProposalStatus.responded := by
      intro p hp
      obtain ⟨x, hx, rfl⟩ := List.mem_map.1 hp
      obtain ⟨hxr, hxs⟩ := hall x hx
      unfold selectUpdateProposal
      by_cases hxid : x.id = pid
      · rw [if_pos hxid]
        exact ⟨hxr, by simp⟩
      · rw [if_neg hxid, if_pos ⟨hxr, hxid, hxs⟩]
        exact ⟨hxr, by simp⟩
    have hsome : ((db.proposals.map (selectUpdateProposal pid k.requestId now)).find?
        (fun p => p.id = p2.id)).isSome :=
      List.find?_isSome.2 ⟨p2, hp2, by simp⟩
    obtain ⟨q, hq⟩ := Option.isSome_iff_exists.1 hsome
    have hqmem : q ∈ db.proposals.map (selectUpdateProposal pid k.requestId now) :=
      List.mem_of_find?_eq_some hq
    obtain ⟨hqreq, hqstat⟩ := helem q hqmem
    have hsome2 : ((db.requests.map (selectUpdateRequest k.requestId now)).find?
        (fun x => x.id = q.requestId)).isSome := by
      apply List.find?_isSome.2
      refine ⟨selectUpdateRequest k.requestId now r,
        List.mem_map_of_mem _ (List.mem_of_find?_eq_some hreq), ?_⟩
      simp [selectUpdateRequest_id, hrid, hqreq]
    obtain ⟨r2, hr2⟩ := Option.isSome_iff_exists.1 hsome2
    simp only [selectProposal, hq, hr2]
    rw [if_pos hqstat]

/-- Witness for `select_postcondition`: selecting `p2` among three
responded proposals of the published request `r1`. -/
theorem select_postcondition_witness :
    ∃ db' : DB,
      selectProposal threeRespondedDB "p2" 10 = .ok db' ∧
      (∀ p ∈ db'.proposals, p.requestId = (sampleProposal "p2" "r1" "c2" .responded).requestId ∧
        (p.id = "p2" → p.status = .selected ∧ p.selectedAt = some 10) ∧
        (p.id ≠ "p2" → p.status = .rejected)) ∧
      db'.proposals.map (fun p => p.id) = threeRespondedDB.proposals.map (fun p => p.id) ∧
      ((db'.proposals.filter (fun p => p.status = .selected)).map (fun p => p.id)) =
        ["p2"] ∧
      (∀ q ∈ db'.requests, q.id = (sampleProposal "p2" "r1" "c2" .responded).requestId →
        q.status = .closed) ∧
      (∀ p2 ∈ db'.proposals, ∀ now2 : ℕ,
        selectProposal db' p2.id now2 = .error .notResponded) :=
  select_postcondition threeRespondedDB "p2" (sampleProposal "p2" "r1" "c2" .responded)
    { id := "r1", status := .published, closedAt := none } 10
    (by decide) (by decide) (by decide) (by decide) (by decide)

end Mitsumori
